import Mathlib

/-!
# Verification of the happy-transformer preprocessing / inference-formatting layer

Shallow embedding of the orchestration code of the `happy-transformer`
repository, together with proofs of the behavioural properties stated in its
specification.

Embedded source files:
* `happy_transformer/happy_transformer.py` — `predict_mask` (restricted mode),
  `soft_sum`, `__format_option_scores`;
* `happytransformer/happy_transformer.py` — `train`, `eval`, `_preprocess_data`;
* `happytransformer/happy_bert.py` — the question-answering gate
  (`init_qa`, `answer_question`, …) and `predict_next_sentence` /
  `__is_one_sentence`.

External collaborators (the `datasets` library's `load_dataset`, `shuffle`,
`train_test_split`, `load_from_disk`, `save_to_disk`, and the wrapped
model/tokenizer) are modelled by their documented contracts: scores are
rationals, a tokenizer is a function `String → List Nat`, the on-disk cache is
a map from paths to split-keyed dataset dictionaries, and the unseeded
permutation drawn inside `train_test_split` is an explicit parameter.
-/

namespace HappyTF

/-! ## Inference formatter (`happy_transformer/happy_transformer.py`) -/

/-- Embeds `HappyTransformer.soft_sum(option, softed, mask_id)`:
`np.sum([softed[mask_id][op] for op in option])` — the sum of the scores of
the option's sub-token ids at the masked position.  Out-of-range indexing
(which would raise in Python) is totalised with a default of `0`. -/
def soft_sum (option : List Nat) (softed : List (List ℚ)) (mask_id : Nat) : ℚ :=
  (option.map (fun op => ((softed.getD mask_id []).getD op 0))).sum

/-- One entry of the user-facing ranked output: the dictionary
`{'word': <option>, 'score': <score>}` built by `__format_option_scores`. -/
structure Prediction where
  word : String
  score : ℚ
deriving Repr, DecidableEq

/-- The comparison used by `sorted(tupled_predictions, key=lambda x: x[1],
reverse=True)`: `a` may precede `b` exactly when `a`'s score is at least
`b`'s.  Python's `sorted` is a stable sort, which `List.mergeSort` models
exactly. -/
def scoreDesc (a b : String × ℚ) : Bool := decide (b.2 ≤ a.2)

/-- Embeds `HappyTransformer.__format_option_scores`: stable-sorts the
(word, score) tuples descending by score and converts each tuple to a
`{'word': _, 'score': _}` record. -/
def format_option_scores (tupled_predictions : List (String × ℚ)) :
    List Prediction :=
  ((tupled_predictions.mergeSort scoreDesc).map fun p => ⟨p.1, p.2⟩)

/-- Embeds the restricted (`options is not None`) path of
`HappyTransformer.predict_mask`: encode every option with the tokenizer, score
each via `soft_sum` against row `softmax[0]` at the masked index, zip the
options with their scores and format.  `encode` stands for
`self.tokenizer.encode` and `softmax0` for `softmax[0]`. -/
def predict_mask_options (encode : String → List Nat)
    (softmax0 : List (List ℚ)) (masked_index : Nat)
    (options : List String) : List Prediction :=
  let option_ids := options.map encode
  let scores := option_ids.map (fun x => soft_sum x softmax0 masked_index)
  let tupled_predictions := options.zip scores
  format_option_scores tupled_predictions

/-- The tuples fed to `__format_option_scores` pair each option with the
`soft_sum` of its sub-token ids. -/
lemma zip_scores_eq (encode : String → List Nat) (softmax0 : List (List ℚ))
    (masked_index : Nat) (options : List String) :
    options.zip ((options.map encode).map
        (fun x => soft_sum x softmax0 masked_index)) =
      options.map (fun w => (w, soft_sum (encode w) softmax0 masked_index)) := by
  induction options with
  | nil => rfl
  | cons a t ih =>
      simp only [List.map_map] at ih
      simp [ih]

lemma scoreDesc_trans (a b c : String × ℚ) :
    scoreDesc a b → scoreDesc b c → scoreDesc a c := by
  simp only [scoreDesc, decide_eq_true_eq]
  intro h1 h2
  exact le_trans h2 h1

lemma scoreDesc_total (a b : String × ℚ) :
    scoreDesc a b || scoreDesc b a := by
  simp only [scoreDesc, Bool.or_eq_true, decide_eq_true_eq]
  exact le_total b.2 a.2

/-- Stability of the Python sort, phrased through `filter`: the sublist of
entries having any fixed score `q` is unchanged by the sort. -/
lemma mergeSort_filter_score (l : List (String × ℚ)) (q : ℚ) :
    (l.mergeSort scoreDesc).filter (fun p => p.2 = q) =
      l.filter (fun p => p.2 = q) := by
  have hsub : List.Sublist (l.filter (fun p => p.2 = q)) (l.mergeSort scoreDesc) := by
    apply List.sublist_mergeSort scoreDesc_trans scoreDesc_total
    · refine List.pairwise_filter.mpr (List.pairwise_of_forall_mem_list ?_)
      intro a _ b _ ha hb
      simp [scoreDesc, ha, hb]
    · exact List.filter_sublist l
  have hperm : ((l.mergeSort scoreDesc).filter (fun p => p.2 = q)).Perm
      (l.filter (fun p => p.2 = q)) :=
    (List.mergeSort_perm l scoreDesc).filter _
  have hsub2 : List.Sublist (l.filter (fun p => p.2 = q))
      ((l.mergeSort scoreDesc).filter (fun p => p.2 = q)) := by
    have := hsub.filter (fun p => decide (p.2 = q))
    simpa [List.filter_filter] using this
  exact (hsub2.eq_of_length hperm.length_eq.symm).symm

/-- Specification-side ranking, written from the spec's words: "ranked
sequence of (candidate, score) descending by score; ties broken by original
candidate order (stable sort)".  Tagging each pair with its input position and
sorting by the total lexicographic key (score strictly descending, then input
position ascending) determines that ranking uniquely. -/
def spec_ranked (tupled : List (String × ℚ)) : List Prediction :=
  ((tupled.enum).mergeSort (fun a b =>
      decide (b.2.2 < a.2.2 ∨ (a.2.2 = b.2.2 ∧ a.1 ≤ b.1)))).map
    (fun p => ⟨p.2.1, p.2.2⟩)

/-- The lexicographic key of `spec_ranked` coincides with core's index-tagged
lift `enumLE` of the code's comparison `scoreDesc`. -/
lemma specLex_eq_enumLE :
    (fun a b : Nat × (String × ℚ) =>
        decide (b.2.2 < a.2.2 ∨ (a.2.2 = b.2.2 ∧ a.1 ≤ b.1))) =
      List.enumLE scoreDesc := by
  funext a b
  simp only [List.enumLE, scoreDesc]
  rcases lt_trichotomy a.2.2 b.2.2 with h | h | h
  · simp [not_le_of_lt h, le_of_lt h, h.ne, (asymm h : ¬ b.2.2 < a.2.2)]
  · simp [le_of_eq h, ge_of_eq h, h, lt_irrefl]
  · simp [not_le_of_lt h, le_of_lt h, h, (h.ne).symm, (asymm h : ¬ a.2.2 < b.2.2)]

/-- The pair view of a ranked-output record. -/
def predToPair (p : Prediction) : String × ℚ :=
  (p.word, p.score)

/-- The tuples handed to `__format_option_scores`: each candidate paired with
the `soft_sum` of its sub-token scores at the masked position. -/
def tupledOf (encode : String → List Nat) (softmax0 : List (List ℚ))
    (masked_index : Nat) (options : List String) : List (String × ℚ) :=
  options.map (fun w => (w, soft_sum (encode w) softmax0 masked_index))

/-- Descending-by-score sortedness of a ranked output. -/
def sortedDescByScore (l : List Prediction) : Prop :=
  l.Pairwise (fun a b => b.score ≤ a.score)

lemma predict_mask_options_eq_format (encode : String → List Nat)
    (softmax0 : List (List ℚ)) (masked_index : Nat) (options : List String) :
    predict_mask_options encode softmax0 masked_index options =
      format_option_scores (tupledOf encode softmax0 masked_index options) := by
  simp only [predict_mask_options, tupledOf]
  rw [zip_scores_eq]

/-- C1: in restricted mode, each candidate's reported score is the sum of the
model scores of its sub-tokens at the mask position, and the output is ranked
descending by that aggregate score with ties broken by original input order
(the unique ranking `spec_ranked`). -/
theorem predict_mask_restricted_sum_sorted_stable (encode : String → List Nat)
    (softmax0 : List (List ℚ)) (masked_index : Nat) (options : List String)
    (_hne : options ≠ []) :
    predict_mask_options encode softmax0 masked_index options =
        spec_ranked (tupledOf encode softmax0 masked_index options) ∧
      ((predict_mask_options encode softmax0 masked_index options).map
          predToPair).Perm (tupledOf encode softmax0 masked_index options) ∧
      sortedDescByScore (predict_mask_options encode softmax0 masked_index options) := by
  rw [predict_mask_options_eq_format]
  set tupled := tupledOf encode softmax0 masked_index options with htup
  refine ⟨?_, ?_, ?_⟩
  · unfold format_option_scores spec_ranked
    rw [specLex_eq_enumLE]
    rw [show (fun p : Nat × (String × ℚ) => Prediction.mk p.2.1 p.2.2) =
        (fun q : String × ℚ => Prediction.mk q.1 q.2) ∘ (fun p : Nat × (String × ℚ) => p.2)
      from rfl]
    rw [← List.map_map]
    rw [List.mergeSort_enum]
  · unfold format_option_scores
    have h1 : ((tupled.mergeSort scoreDesc).map fun p => Prediction.mk p.1 p.2).map
        predToPair = tupled.mergeSort scoreDesc := by
      rw [List.map_map]
      exact List.map_id'' (fun x => rfl) _
    rw [h1]
    exact List.mergeSort_perm tupled scoreDesc
  · unfold format_option_scores sortedDescByScore
    have hs : (tupled.mergeSort scoreDesc).Pairwise (fun a b => scoreDesc a b = true) :=
      List.sorted_mergeSort scoreDesc_trans scoreDesc_total tupled
    refine List.pairwise_map.mpr ?_
    refine hs.imp ?_
    intro a b h
    simpa [scoreDesc] using h

/-- Concrete tokenizer used to witness the restricted-mode ranking: the spec's
example candidate "healthcare" splits into two sub-tokens. -/
def encodeW : String → List Nat :=
  fun w => if w = "technology" then [3] else [4, 5]

/-- Concrete softmax row set used to witness the restricted-mode ranking. -/
def softmaxW : List (List ℚ) :=
  [[0, 0, 0, 0, 0, 0], [0, 1/10, 2/10, 3/10, 1/5, 1/5]]

/-- Witness for C1 at the spec's example candidates
`["technology", "healthcare"]`. -/
theorem predict_mask_restricted_sum_sorted_stable_witness :
    predict_mask_options encodeW softmaxW 1 ["technology", "healthcare"] =
        spec_ranked (tupledOf encodeW softmaxW 1 ["technology", "healthcare"]) ∧
      ((predict_mask_options encodeW softmaxW 1 ["technology", "healthcare"]).map
          predToPair).Perm (tupledOf encodeW softmaxW 1 ["technology", "healthcare"]) ∧
      sortedDescByScore
        (predict_mask_options encodeW softmaxW 1 ["technology", "healthcare"]) :=
  predict_mask_restricted_sum_sorted_stable encodeW softmaxW 1
    ["technology", "healthcare"] (by decide)

/-- C8: restricted mode with an empty candidate list produces an empty ranked
output and takes no error path. -/
theorem predict_mask_empty_options (encode : String → List Nat)
    (softmax0 : List (List ℚ)) (masked_index : Nat) :
    predict_mask_options encode softmax0 masked_index [] = [] := by
  simp [predict_mask_options, format_option_scores]

/-! ## Preprocessing pipeline (`happytransformer/happy_transformer.py`) -/

/-- The fields of a `TrainArgs` child class that `_preprocess_data` reads.
`eval_ratio` is the split ratio handed to `train_test_split(test_size=...)`. -/
structure PTrainArgs where
  eval_ratio : ℚ
  save_preprocessed_data : Bool
  save_preprocessed_data_path : String
  load_preprocessed_data : Bool
  load_preprocessed_data_path : String

/-- The durable store behind `datasets.load_from_disk` / `save_to_disk`: a map
from paths to saved `DatasetDict`s, each a list of (split name, tokenized
split) entries. -/
def Disk (τ : Type) : Type := String → Option (List (String × τ))

/-- Embeds `save_to_disk`: `DatasetDict({"train": …, "eval": …})` written
under `path`. -/
def diskWrite {τ : Type} (disk : Disk τ) (path : String) (t e : τ) : Disk τ :=
  fun p => if p = path then some [("train", t), ("eval", e)] else disk p

/-- Embeds Python's `path.endswith(".json")` over the path's characters. -/
def endsJson (s : String) : Bool :=
  decide (s.data.reverse.take 5 = ['n', 'o', 's', 'j', '.'])

/-- A pseudo-random sort key, so that the embedded `shuffle` below is a
nontrivial deterministic permutation. -/
def lcgKey (seed i : Nat) : Nat :=
  (1103515245 * (seed + i) + 12345) % 2147483648

/-- Models `datasets.Dataset.shuffle(seed=s)` by its contract: a permutation
of the rows determined entirely by the seed (and the row count), hence
reproducible across runs of the same call. -/
def shuffleSeed {ρ : Type} (seed : Nat) (l : List ρ) : List ρ :=
  ((l.enum).mergeSort (fun a b => decide (lcgKey seed a.1 ≤ lcgKey seed b.1))).map
    Prod.snd

lemma shuffleSeed_perm {ρ : Type} (seed : Nat) (l : List ρ) :
    (shuffleSeed seed l).Perm l := by
  have h := (List.mergeSort_perm (l.enum)
      (fun a b => decide (lcgKey seed a.1 ≤ lcgKey seed b.1))).map
    (Prod.snd : Nat × ρ → ρ)
  unfold shuffleSeed
  refine h.trans ?_
  rw [List.enum_map_snd]

/-- Row selection by index list (how a permutation of indices is applied to
the rows of a dataset). -/
def pickRows {ρ : Type} (data : List ρ) (idxs : List Nat) : List ρ :=
  idxs.filterMap (fun i => data[i]?)

/-- The quantity `n_test = ceil(test_size * n_samples)`: the test-partition size that
`datasets.Dataset.train_test_split` (following scikit-learn's
`_validate_shuffle_split`) assigns to a float `test_size`. -/
def nTestOf (ratio : ℚ) (n : Nat) : Nat :=
  (⌈ratio * (n : ℚ)⌉).toNat

/-- The index list of the test (eval) partition drawn by `train_test_split`:
the first `n_test` entries of the library's internal permutation. -/
def testIdxOf (perm : List Nat) (ratio : ℚ) (n : Nat) : List Nat :=
  perm.take (nTestOf ratio n)

/-- The index list of the train partition drawn by `train_test_split`: the
next `n_train = n - n_test` entries of the internal permutation. -/
def trainIdxOf (perm : List Nat) (ratio : ℚ) (n : Nat) : List Nat :=
  (perm.drop (nTestOf ratio n)).take (n - nTestOf ratio n)

/-- Models `datasets.Dataset.train_test_split(test_size=ratio)`: the library
draws a permutation `perm` of the row indices (its internal shuffle, which is
not seeded by the caller, so it is an explicit parameter here), sends the
first `n_test` indices to the test split and the following `n_train` to the
train split.  Returns `(train, test)`. -/
def train_test_split {ρ : Type} (data : List ρ) (ratio : ℚ) (perm : List Nat) :
    List ρ × List ρ :=
  (pickRows data (trainIdxOf perm ratio data.length),
   pickRows data (testIdxOf perm ratio data.length))

/-- Decidable disjointness of two index lists. -/
def disjointIdx (l₁ l₂ : List Nat) : Bool :=
  l₁.all (fun i => decide (i ∉ l₂))

lemma pickRows_range {ρ : Type} (l : List ρ) :
    pickRows l (List.range l.length) = l := by
  induction l with
  | nil => rfl
  | cons a t ih =>
    have hcomp : List.filterMap (fun i => (a :: t)[i]?)
        (List.map Nat.succ (List.range t.length)) = t := by
      rw [List.filterMap_map]
      have : ((fun i => (a :: t)[i]?) ∘ Nat.succ) = (fun i => t[i]?) := by
        funext i
        simp
      rw [this]
      exact ih
    simp only [pickRows, List.length_cons, List.range_succ_eq_map,
      List.filterMap_cons]
    simp only [List.getElem?_cons_zero]
    rw [hcomp]

lemma pickRows_length {ρ : Type} (data : List ρ) (idxs : List Nat)
    (h : ∀ i ∈ idxs, i < data.length) :
    (pickRows data idxs).length = idxs.length := by
  induction idxs with
  | nil => rfl
  | cons i t ih =>
    have hi : i < data.length := h i (List.mem_cons_self i t)
    simp only [pickRows, List.filterMap_cons, List.getElem?_eq_getElem hi]
    simp only [pickRows] at ih
    rw [List.length_cons, ih (fun j hj => h j (List.mem_cons_of_mem i hj))]
    simp

lemma mem_lt_of_perm_range {perm : List Nat} {n : Nat}
    (hperm : perm.Perm (List.range n)) : ∀ i ∈ perm, i < n := by
  intro i hi
  exact List.mem_range.mp (hperm.mem_iff.mp hi)

/-- The two partitions produced by `train_test_split` together are a
permutation of the input rows: the split is a partition. -/
lemma train_test_split_append_perm {ρ : Type} (data : List ρ) (ratio : ℚ)
    (perm : List Nat) (hperm : perm.Perm (List.range data.length)) :
    ((train_test_split data ratio perm).1 ++
      (train_test_split data ratio perm).2).Perm data := by
  unfold train_test_split trainIdxOf testIdxOf pickRows
  have hlen : perm.length = data.length := by
    rw [hperm.length_eq, List.length_range]
  have hdroplen : (perm.drop (nTestOf ratio data.length)).length =
      data.length - nTestOf ratio data.length := by
    rw [List.length_drop, hlen]
  rw [List.take_of_length_le (le_of_eq hdroplen), ← List.filterMap_append]
  have hp : ((perm.drop (nTestOf ratio data.length)) ++
      (perm.take (nTestOf ratio data.length))).Perm perm := by
    refine List.perm_append_comm.trans ?_
    rw [List.take_append_drop]
  refine ((hp.trans hperm).filterMap _).trans ?_
  have := pickRows_range data
  unfold pickRows at this
  rw [this]

/-- The test indices and the train indices drawn from the internal
permutation are disjoint: no row lands in both partitions. -/
lemma train_test_split_disjoint {n : Nat} (perm : List Nat) (ratio : ℚ)
    (hperm : perm.Perm (List.range n)) :
    disjointIdx (testIdxOf perm ratio n) (trainIdxOf perm ratio n) = true := by
  have hnd : perm.Nodup := (hperm.nodup_iff).mpr (List.nodup_range n)
  rw [disjointIdx, List.all_eq_true]
  intro i hi
  rw [decide_eq_true_eq]
  intro hmem
  have h1 : i ∈ perm.take (nTestOf ratio n) := hi
  have h2 : i ∈ perm.drop (nTestOf ratio n) := by
    unfold trainIdxOf at hmem
    exact List.mem_of_mem_take hmem
  have hnd2 : (perm.take (nTestOf ratio n) ++ perm.drop (nTestOf ratio n)).Nodup := by
    rw [List.take_append_drop]
    exact hnd
  exact (List.nodup_append.mp hnd2).2.2 h1 h2

lemma nTestOf_le (ratio : ℚ) (n : Nat) (h1 : ratio ≤ 1) :
    nTestOf ratio n ≤ n := by
  unfold nTestOf
  rw [Int.toNat_le]
  have hle : ratio * (n : ℚ) ≤ (n : ℚ) := by
    have := mul_le_mul_of_nonneg_right h1 (by positivity : (0:ℚ) ≤ (n : ℚ))
    simpa using this
  calc ⌈ratio * (n : ℚ)⌉ ≤ ⌈((n : ℚ))⌉ := Int.ceil_le_ceil hle
    _ = (n : ℤ) := Int.ceil_natCast n

/-- Partition sizes: the eval (test) partition has exactly
`ceil(ratio * n)` rows and the train partition the remaining `n - ceil(ratio * n)`. -/
lemma train_test_split_sizes {ρ : Type} (data : List ρ) (ratio : ℚ)
    (perm : List Nat) (hperm : perm.Perm (List.range data.length))
    (h1 : ratio ≤ 1) :
    (train_test_split data ratio perm).2.length = nTestOf ratio data.length ∧
      (train_test_split data ratio perm).1.length =
        data.length - nTestOf ratio data.length := by
  have hlen : perm.length = data.length := by
    rw [hperm.length_eq, List.length_range]
  have hk := nTestOf_le ratio data.length h1
  have hmem := mem_lt_of_perm_range hperm
  constructor
  · unfold train_test_split testIdxOf
    rw [pickRows_length _ _ (fun i hi => hmem i (List.mem_of_mem_take hi))]
    rw [List.length_take, hlen]
    exact Nat.min_eq_left hk
  · unfold train_test_split trainIdxOf
    rw [pickRows_length _ _
      (fun i hi => hmem i (List.mem_of_mem_drop (List.mem_of_mem_take hi)))]
    rw [List.length_take, List.length_drop, hlen]
    exact Nat.min_self _

/-- The `ValueError` text raised (line 145) when the legacy `.json` check in
the load branch fires.  Note the code tests `save_preprocessed_data_path`
there, not the load path. -/
def jsonLoadErrorMsg : String :=
  "As of version 2.5.0 preprocessed files are not longer saved as json files. Please preprocess your data again"

/-- The `ValueError` text raised (line 159) when the save path ends in `.json`. -/
def jsonSaveErrorMsg : String :=
  "As of version 2.5.0 preprocessed files are not longer saved as json files. Please provide a path to a folder."

/-- The warning logged when saving and loading are both enabled. -/
def bothWarnMsg : String :=
  "Both save_preprocessed_data and load_data are enabled,"

/-- First half of `HappyTransformer._preprocess_data` (lines 132-151): either
tokenize fresh data (splitting by ratio when no eval file is given — the
`eval_filepath == \x22\x22` test is modelled by `evalRaw = none`) or load a
previously preprocessed `DatasetDict` from disk.  As in the code, the legacy
`.json` guard inside the load branch inspects `save_preprocessed_data_path`. -/
def preprocess_load_or_tokenize {ρ τ : Type} (tok : List ρ → τ) (disk : Disk τ)
    (trainRaw : List ρ) (evalRaw : Option (List ρ)) (perm : List Nat)
    (args : PTrainArgs) : Except String (τ × τ) :=
  if ¬ args.load_preprocessed_data then
    match evalRaw with
    | none =>
        let all_raw_data := shuffleSeed 42 trainRaw
        let split_text_data := train_test_split all_raw_data args.eval_ratio perm
        Except.ok (tok split_text_data.1, tok split_text_data.2)
    | some evalData => Except.ok (tok trainRaw, tok evalData)
  else
    if endsJson args.save_preprocessed_data_path then
      Except.error jsonLoadErrorMsg
    else
      match disk args.load_preprocessed_data_path with
      | none =>
          Except.error ("Directory " ++ args.load_preprocessed_data_path ++ " not found")
      | some tok_data =>
          match tok_data.lookup "train", tok_data.lookup "eval" with
          | some t, some e => Except.ok (t, e)
          | _, _ => Except.error "KeyError: train or eval split missing"

/-- Embeds `HappyTransformer._preprocess_data` (lines 123-166): the first half
above followed by the optional cache write (lines 153-164).  The result
carries the tokenized train/eval pair, the disk after any `save_to_disk`, and
the warnings logged along the way. -/
def preprocess_data {ρ τ : Type} (tok : List ρ → τ) (disk : Disk τ)
    (trainRaw : List ρ) (evalRaw : Option (List ρ)) (perm : List Nat)
    (args : PTrainArgs) : Except String ((τ × τ) × Disk τ × List String) := do
  let pair ← preprocess_load_or_tokenize tok disk trainRaw evalRaw perm args
  if args.save_preprocessed_data then
    let warnings := if args.load_preprocessed_data then [bothWarnMsg] else []
    if endsJson args.save_preprocessed_data_path then
      throw jsonSaveErrorMsg
    else
      pure (pair, diskWrite disk args.save_preprocessed_data_path pair.1 pair.2,
        warnings)
  else
    pure (pair, disk, [])

/-- The `ValueError` text of `train` for dict-shaped legacy arguments. -/
def dictTrainErrorMsg : String :=
  "Dictionary training arguments are no longer supported as of Happy Transformer version 2.5.0."

/-- The `ValueError` text of `eval` for dict-shaped legacy arguments. -/
def dictEvalErrorMsg : String :=
  "Dictionary evaluating arguments are no longer supported as of Happy Transformer version 2.5.0."

/-- An argument object as received by `train`/`eval`: either a proper
`TrainArgs` dataclass or a legacy Python dict (a list of key/value pairs,
whose contents are never inspected). -/
inductive ArgsOrDict
  | args (a : PTrainArgs)
  | dict (d : List (String × String))

/-- Embeds `HappyTransformer.train` (lines 66-82): reject dict-shaped
arguments, otherwise preprocess and hand the tokenized pair to the trainer
(`self._trainer._run_train`, an opaque collaborator producing a result of
type `σ`). -/
def train {ρ τ σ : Type} (tok : List ρ → τ) (disk : Disk τ)
    (trainRaw : List ρ) (evalRaw : Option (List ρ)) (perm : List Nat)
    (runTrain : τ → τ → PTrainArgs → σ) (argsOrDict : ArgsOrDict) :
    Except String (σ × Disk τ × List String) := do
  match argsOrDict with
  | .dict _ => throw dictTrainErrorMsg
  | .args args => do
      let r ← preprocess_data tok disk trainRaw evalRaw perm args
      pure (runTrain r.1.1 r.1.2 args, r.2.1, r.2.2)

/-- Embeds `HappyTransformer.eval` (lines 86-97): reject dict-shaped
arguments, otherwise delegate to `self._trainer.eval` (an opaque collaborator
producing an `EvalResult` of type `σ`). -/
def eval {ρ σ : Type} (trainerEval : List ρ → PTrainArgs → σ)
    (inputData : List ρ) (argsOrDict : ArgsOrDict) : Except String σ :=
  match argsOrDict with
  | .dict _ => Except.error dictEvalErrorMsg
  | .args args => Except.ok (trainerEval inputData args)

/-- C2: when the split-by-ratio path runs (`evalRaw = none`, no cache load),
the train and eval outputs are the tokenizations of a partition of the input
rows — together the two raw partitions are a permutation of the input and
their index sets are disjoint; when a separate eval file is given, no
splitting occurs and the two files are tokenized independently. -/
theorem preprocess_data_partition {ρ τ : Type} (tok : List ρ → τ)
    (disk : Disk τ) (trainRaw evalRaw : List ρ) (perm : List Nat)
    (args : PTrainArgs)
    (hload : args.load_preprocessed_data = false)
    (hsave : args.save_preprocessed_data = false)
    (hperm : perm.Perm (List.range trainRaw.length)) :
    preprocess_data tok disk trainRaw none perm args =
        Except.ok
          ((tok (train_test_split (shuffleSeed 42 trainRaw) args.eval_ratio perm).1,
            tok (train_test_split (shuffleSeed 42 trainRaw) args.eval_ratio perm).2),
           disk, []) ∧
      ((train_test_split (shuffleSeed 42 trainRaw) args.eval_ratio perm).1 ++
        (train_test_split (shuffleSeed 42 trainRaw) args.eval_ratio perm).2).Perm
          trainRaw ∧
      disjointIdx (testIdxOf perm args.eval_ratio trainRaw.length)
        (trainIdxOf perm args.eval_ratio trainRaw.length) = true ∧
      preprocess_data tok disk trainRaw (some evalRaw) perm args =
        Except.ok ((tok trainRaw, tok evalRaw), disk, []) := by
  have hlen : (shuffleSeed 42 trainRaw).length = trainRaw.length :=
    (shuffleSeed_perm 42 trainRaw).length_eq
  have hperm2 : perm.Perm (List.range (shuffleSeed 42 trainRaw).length) := by
    rw [hlen]
    exact hperm
  refine ⟨?_, ?_, ?_, ?_⟩
  · simp [preprocess_data, preprocess_load_or_tokenize, hload, hsave]
  · exact (train_test_split_append_perm _ _ _ hperm2).trans
      (shuffleSeed_perm 42 trainRaw)
  · exact train_test_split_disjoint perm args.eval_ratio hperm
  · simp [preprocess_data, preprocess_load_or_tokenize, hload, hsave]

/-- C7: in the single-file path the loaded rows are first shuffled by the
fixed-seed deterministic permutation `shuffleSeed 42` and then split so that
the eval partition holds `ceil(eval_ratio * n)` of the `n` rows (the rounding
of `eval_ratio * n`) and the train partition the rest. -/
theorem preprocess_data_shuffle_then_split {ρ τ : Type} (tok : List ρ → τ)
    (disk : Disk τ) (trainRaw : List ρ) (perm : List Nat) (args : PTrainArgs)
    (hload : args.load_preprocessed_data = false)
    (hsave : args.save_preprocessed_data = false)
    (hperm : perm.Perm (List.range trainRaw.length))
    (h1 : args.eval_ratio ≤ 1) :
    preprocess_data tok disk trainRaw none perm args =
        Except.ok
          ((tok (train_test_split (shuffleSeed 42 trainRaw) args.eval_ratio perm).1,
            tok (train_test_split (shuffleSeed 42 trainRaw) args.eval_ratio perm).2),
           disk, []) ∧
      (shuffleSeed 42 trainRaw).Perm trainRaw ∧
      (train_test_split (shuffleSeed 42 trainRaw) args.eval_ratio perm).2.length =
        nTestOf args.eval_ratio trainRaw.length ∧
      (train_test_split (shuffleSeed 42 trainRaw) args.eval_ratio perm).1.length =
        trainRaw.length - nTestOf args.eval_ratio trainRaw.length := by
  have hlen : (shuffleSeed 42 trainRaw).length = trainRaw.length :=
    (shuffleSeed_perm 42 trainRaw).length_eq
  have hperm2 : perm.Perm (List.range (shuffleSeed 42 trainRaw).length) := by
    rw [hlen]
    exact hperm
  have hsz := train_test_split_sizes (shuffleSeed 42 trainRaw) args.eval_ratio
    perm hperm2 h1
  rw [hlen] at hsz
  exact ⟨by simp [preprocess_data, preprocess_load_or_tokenize, hload, hsave],
    shuffleSeed_perm 42 trainRaw, hsz.1, hsz.2⟩

/-- An empty cache store over `List String` splits, for concrete runs. -/
def diskEmptyW : Disk (List String) := fun _ => none

/-- Arguments for a concrete no-cache preprocessing run with ratio 1/4. -/
def argsSplitW : PTrainArgs :=
  ⟨mkRat 1 4, false, "", false, ""⟩

/-- Witness for C2 at four concrete rows and the internal permutation
`[2, 0, 3, 1]`. -/
theorem preprocess_data_partition_witness :
    preprocess_data id diskEmptyW ["r0", "r1", "r2", "r3"] none [2, 0, 3, 1]
        argsSplitW =
      Except.ok
        ((id (train_test_split (shuffleSeed 42 ["r0", "r1", "r2", "r3"])
            argsSplitW.eval_ratio [2, 0, 3, 1]).1,
          id (train_test_split (shuffleSeed 42 ["r0", "r1", "r2", "r3"])
            argsSplitW.eval_ratio [2, 0, 3, 1]).2),
         diskEmptyW, []) ∧
      ((train_test_split (shuffleSeed 42 ["r0", "r1", "r2", "r3"])
          argsSplitW.eval_ratio [2, 0, 3, 1]).1 ++
        (train_test_split (shuffleSeed 42 ["r0", "r1", "r2", "r3"])
          argsSplitW.eval_ratio [2, 0, 3, 1]).2).Perm ["r0", "r1", "r2", "r3"] ∧
      disjointIdx
        (testIdxOf [2, 0, 3, 1] argsSplitW.eval_ratio
          (["r0", "r1", "r2", "r3"] : List String).length)
        (trainIdxOf [2, 0, 3, 1] argsSplitW.eval_ratio
          (["r0", "r1", "r2", "r3"] : List String).length) = true ∧
      preprocess_data id diskEmptyW ["r0", "r1", "r2", "r3"] (some ["e0"])
          [2, 0, 3, 1] argsSplitW =
        Except.ok ((id ["r0", "r1", "r2", "r3"], id ["e0"]), diskEmptyW, []) :=
  preprocess_data_partition id diskEmptyW ["r0", "r1", "r2", "r3"] ["e0"]
    [2, 0, 3, 1] argsSplitW rfl rfl (by decide)

/-- An empty cache store over `List (List Nat)` splits, for concrete runs. -/
def diskEmptyNW : Disk (List (List Nat)) := fun _ => none

/-- Arguments for a concrete no-cache preprocessing run with ratio 1/2. -/
def argsHalfW : PTrainArgs :=
  ⟨mkRat 1 2, false, "", false, ""⟩

/-- Witness for C7 at five concrete rows and the internal permutation
`[4, 1, 3, 0, 2]`. -/
theorem preprocess_data_shuffle_then_split_witness :
    preprocess_data id diskEmptyNW [[0], [1], [2], [3], [4]] none
        [4, 1, 3, 0, 2] argsHalfW =
      Except.ok
        ((id (train_test_split (shuffleSeed 42 [[0], [1], [2], [3], [4]])
            argsHalfW.eval_ratio [4, 1, 3, 0, 2]).1,
          id (train_test_split (shuffleSeed 42 [[0], [1], [2], [3], [4]])
            argsHalfW.eval_ratio [4, 1, 3, 0, 2]).2),
         diskEmptyNW, []) ∧
      (shuffleSeed 42 [[0], [1], [2], [3], [4]]).Perm [[0], [1], [2], [3], [4]] ∧
      (train_test_split (shuffleSeed 42 [[0], [1], [2], [3], [4]])
          argsHalfW.eval_ratio [4, 1, 3, 0, 2]).2.length =
        nTestOf argsHalfW.eval_ratio
          ([[0], [1], [2], [3], [4]] : List (List Nat)).length ∧
      (train_test_split (shuffleSeed 42 [[0], [1], [2], [3], [4]])
          argsHalfW.eval_ratio [4, 1, 3, 0, 2]).1.length =
        ([[0], [1], [2], [3], [4]] : List (List Nat)).length -
          nTestOf argsHalfW.eval_ratio
            ([[0], [1], [2], [3], [4]] : List (List Nat)).length :=
  preprocess_data_shuffle_then_split id diskEmptyNW [[0], [1], [2], [3], [4]]
    [4, 1, 3, 0, 2] argsHalfW rfl rfl (by decide) (by decide)

/-- C3: with both `save_preprocessed_data` and `load_preprocessed_data`
enabled (and a usable cache), `_preprocess_data` only logs the warning, loads
the cached pair, returns it, and writes that same loaded pair back to the
save path — load-then-save semantics, no error. -/
theorem preprocess_data_save_and_load_warns {ρ τ : Type} (tok : List ρ → τ)
    (disk : Disk τ) (trainRaw : List ρ) (evalRaw : Option (List ρ))
    (perm : List Nat) (args : PTrainArgs) (dd : List (String × τ)) (t e : τ)
    (hload : args.load_preprocessed_data = true)
    (hsave : args.save_preprocessed_data = true)
    (hjson : endsJson args.save_preprocessed_data_path = false)
    (hdisk : disk args.load_preprocessed_data_path = some dd)
    (ht : dd.lookup "train" = some t)
    (he : dd.lookup "eval" = some e) :
    preprocess_data tok disk trainRaw evalRaw perm args =
        Except.ok
          ((t, e), diskWrite disk args.save_preprocessed_data_path t e,
           [bothWarnMsg]) ∧
      diskWrite disk args.save_preprocessed_data_path t e
          args.save_preprocessed_data_path = some [("train", t), ("eval", e)] := by
  constructor
  · simp [preprocess_data, preprocess_load_or_tokenize, hload, hsave, hjson,
      hdisk, ht, he]
  · simp [diskWrite]

/-- A concrete cache store holding a tokenized pair under the path "cache". -/
def diskCacheW : Disk (List (List Nat)) :=
  fun p => if p = "cache" then some [("train", [[1, 2]]), ("eval", [[3]])] else none

/-- Arguments enabling both cache load (from "cache") and cache save (to
"out"). -/
def argsBothW : PTrainArgs :=
  ⟨mkRat 1 10, true, "out", true, "cache"⟩

/-- Witness for C3 at a concrete cache store and concrete paths. -/
theorem preprocess_data_save_and_load_warns_witness :
    preprocess_data id diskCacheW [] none [] argsBothW =
        Except.ok
          (([[1, 2]], [[3]]), diskWrite diskCacheW "out" [[1, 2]] [[3]],
           [bothWarnMsg]) ∧
      diskWrite diskCacheW "out" [[1, 2]] [[3]] "out" =
        some [("train", [[1, 2]]), ("eval", [[3]])] :=
  preprocess_data_save_and_load_warns id diskCacheW [] none [] argsBothW
    [("train", [[1, 2]]), ("eval", [[3]])] [[1, 2]] [[3]]
    rfl rfl (by decide) (by decide) (by decide) (by decide)

/-- A concrete cache store holding a tokenized pair under the legacy
single-file path "cache.json". -/
def diskJsonW : Disk (List (List Nat)) :=
  fun p =>
    if p = "cache.json" then some [("train", [[1, 2]]), ("eval", [[3]])] else none

/-- C4 (divergence run): loading with the legacy path "cache.json" (saving
disabled, so the save path is the default "") is not rejected — the `.json`
guard of the load branch tests `save_preprocessed_data_path` instead of the
load path — and the pipeline goes on to read the `.json`-named cache. -/
theorem preprocess_data_json_load_not_rejected :
    preprocess_data (fun l : List (List Nat) => l) diskJsonW [] none []
        ⟨mkRat 1 10, false, "", true, "cache.json"⟩ =
      Except.ok (([[1, 2]], [[3]]), diskJsonW, []) := by
  simp [preprocess_data, preprocess_load_or_tokenize, diskJsonW, endsJson, List.lookup]

/-- C5: a dict-shaped legacy argument object makes `train` and `eval` fail
with the fixed configuration error, for every dict and every other input —
the error does not depend on the dict's contents, no preprocessing runs, and
the disk is untouched. -/
theorem train_eval_dict_rejected {ρ τ σ : Type} (tok : List ρ → τ)
    (disk : Disk τ) (trainRaw : List ρ) (evalRaw : Option (List ρ))
    (perm : List Nat) (runTrain : τ → τ → PTrainArgs → σ)
    (trainerEval : List ρ → PTrainArgs → σ) (inputData : List ρ)
    (d : List (String × String)) :
    train tok disk trainRaw evalRaw perm runTrain (ArgsOrDict.dict d) =
        Except.error dictTrainErrorMsg ∧
      eval trainerEval inputData (ArgsOrDict.dict d) =
        Except.error dictEvalErrorMsg := by
  exact ⟨rfl, rfl⟩

/-- Whenever a preprocessing run with saving enabled succeeds, the disk it
returns holds, at the save path, exactly the `DatasetDict` of the returned
tokenized pair. -/
lemma preprocess_data_saved {ρ τ : Type} (tok : List ρ → τ) (disk : Disk τ)
    (trainRaw : List ρ) (evalRaw : Option (List ρ)) (perm : List Nat)
    (args : PTrainArgs) (r : (τ × τ) × Disk τ × List String)
    (hsave : args.save_preprocessed_data = true)
    (hok : preprocess_data tok disk trainRaw evalRaw perm args = Except.ok r) :
    r.2.1 = diskWrite disk args.save_preprocessed_data_path r.1.1 r.1.2 := by
  unfold preprocess_data at hok
  cases hst : preprocess_load_or_tokenize tok disk trainRaw evalRaw perm args with
  | error s =>
      rw [hst] at hok
      simp [Bind.bind, Except.bind] at hok
  | ok pair =>
      rw [hst] at hok
      simp only [Bind.bind, Except.bind, hsave, if_true] at hok
      cases hj : endsJson args.save_preprocessed_data_path with
      | true =>
          rw [hj] at hok
          simp [throw, throwThe, MonadExceptOf.throw] at hok
      | false =>
          rw [hj] at hok
          simp only [Bool.false_eq_true, if_false, pure, Except.pure,
            Except.ok.injEq] at hok
          rw [← hok]

/-- C9: a preprocessing run that saves to path `P`, followed by a run that
loads from `P`, reproduces exactly the first run's tokenized train/eval pair
— identical token sequences in identical row order — and leaves the disk
unchanged. -/
theorem preprocess_data_save_load_roundtrip {ρ τ : Type} (tok : List ρ → τ)
    (disk : Disk τ) (trainRaw trainRaw2 : List ρ)
    (evalRaw evalRaw2 : Option (List ρ)) (perm perm2 : List Nat)
    (args1 args2 : PTrainArgs) (r : (τ × τ) × Disk τ × List String)
    (hsave1 : args1.save_preprocessed_data = true)
    (hok : preprocess_data tok disk trainRaw evalRaw perm args1 = Except.ok r)
    (hload2 : args2.load_preprocessed_data = true)
    (hpath : args2.load_preprocessed_data_path = args1.save_preprocessed_data_path)
    (hsave2 : args2.save_preprocessed_data = false)
    (hjson2 : endsJson args2.save_preprocessed_data_path = false) :
    preprocess_data tok r.2.1 trainRaw2 evalRaw2 perm2 args2 =
      Except.ok (r.1, r.2.1, []) := by
  have hsd := preprocess_data_saved tok disk trainRaw evalRaw perm args1 r
    hsave1 hok
  have hdisk2 : r.2.1 args2.load_preprocessed_data_path =
      some [("train", r.1.1), ("eval", r.1.2)] := by
    rw [hsd, hpath, diskWrite]
    simp
  simp [preprocess_data, preprocess_load_or_tokenize, hload2, hsave2, hjson2,
    hdisk2, List.lookup]

/-- The empty cache store for the concrete round-trip run. -/
def diskEmptyRW : Disk (List (List Nat)) := fun _ => none

/-- Arguments of the first (saving) round-trip run. -/
def argsSaveRW : PTrainArgs :=
  ⟨mkRat 1 2, true, "out", false, ""⟩

/-- Arguments of the second (loading) round-trip run. -/
def argsLoadRW : PTrainArgs :=
  ⟨mkRat 1 2, false, "", true, "out"⟩

/-- The result record of the first round-trip run. -/
def resultRW : ((List (List Nat) × List (List Nat)) × Disk (List (List Nat)) × List String) :=
  (([[1], [2]], [[9]]), diskWrite diskEmptyRW "out" [[1], [2]] [[9]], [])

/-- Witness for C9: save two concrete tokenized splits to "out", load them
back, and obtain the identical pair. -/
theorem preprocess_data_save_load_roundtrip_witness :
    preprocess_data id resultRW.2.1 [] none [] argsLoadRW =
      Except.ok (resultRW.1, resultRW.2.1, []) :=
  preprocess_data_save_load_roundtrip id diskEmptyRW [[1], [2]] []
    (some [[9]]) none [] [] argsSaveRW argsLoadRW resultRW
    rfl rfl rfl rfl rfl (by decide)

/-! ## HappyBERT question-answering gate (`happytransformer/happy_bert.py`) -/

/-- The error raised when a gated feature is used before its setup call. -/
inductive HTError
  | notInitialized (feature : String) (setupCall : String)
deriving DecidableEq, Repr

/-- Modelled from the spec: `_init_model_first_warning` is defined outside
the provided sources (only its call sites appear in `happy_bert.py`).  Per
the spec, a call made before initialization "fails with a
`NotInitializedError` naming the required setup call". -/
def init_model_first_warning (feature setupCall : String) : HTError :=
  HTError.notInitialized feature setupCall

/-- The QA-relevant state of a `HappyBERT` instance: the private
`__qa_init` flag. -/
structure HappyBERTState where
  qa_init : Bool

/-- Embeds `HappyBERT.__init__` (line 57): `self.__qa_init = False`. -/
def initialHappyBERT : HappyBERTState := ⟨false⟩

/-- Embeds `init_qa` (lines 144-157): loads the QA model, tokenizer and
runner (opaque collaborators) and sets `__qa_init = True`. -/
def init_qa (_s : HappyBERTState) : HappyBERTState := ⟨true⟩

/-- Embeds `answer_question` (lines 166-178): delegates to the QA runner when
initialized, otherwise fails as uninitialized. -/
def answer_question (s : HappyBERTState) (runner : String → String → String)
    (question text : String) : Except HTError String :=
  if s.qa_init then Except.ok (runner question text)
  else Except.error (init_model_first_warning "question answering" "init_qa(model_name)")

/-- Embeds `answers_to_question` (lines 159-164). -/
def answers_to_question (s : HappyBERTState)
    (runnerK : String → String → Nat → List String)
    (question context : String) (k : Nat) : Except HTError (List String) :=
  if s.qa_init then Except.ok (runnerK question context k)
  else Except.error (init_model_first_warning "question answering" "init_qa(model_name)")

/-- Embeds `train_qa` (lines 180-188): lazily builds the QA trainer (opaque)
and trains; side effects are opaque, so success is `Unit`. -/
def train_qa (s : HappyBERTState) (trainerTrain : String → Unit)
    (filepath : String) : Except HTError Unit :=
  if s.qa_init then Except.ok (trainerTrain filepath)
  else Except.error (init_model_first_warning "question answering" "init_qa(model_name)")

/-- Embeds `eval_qa` (lines 199-207).  With the uninitialized call failing,
the trailing `return -1` of the source's else branch is unreachable. -/
def eval_qa (s : HappyBERTState) (trainerEval : String → ℚ)
    (filepath : String) : Except HTError ℚ :=
  if s.qa_init then Except.ok (trainerEval filepath)
  else Except.error (init_model_first_warning "question answering" "init_qa(model_name)")

/-- C6: before `init_qa`, each of the four QA operations fails with the
`NotInitializedError` naming the required setup call `init_qa(model_name)`;
after `init_qa` (from any state), each succeeds and in particular never fails
with that error. -/
theorem qa_ops_require_init (s : HappyBERTState)
    (runner : String → String → String)
    (runnerK : String → String → Nat → List String)
    (trainerTrain : String → Unit) (trainerEval : String → ℚ)
    (question context filepath : String) (k : Nat) :
    (answer_question initialHappyBERT runner question context =
        Except.error (HTError.notInitialized "question answering" "init_qa(model_name)")) ∧
      (answers_to_question initialHappyBERT runnerK question context k =
        Except.error (HTError.notInitialized "question answering" "init_qa(model_name)")) ∧
      (train_qa initialHappyBERT trainerTrain filepath =
        Except.error (HTError.notInitialized "question answering" "init_qa(model_name)")) ∧
      (eval_qa initialHappyBERT trainerEval filepath =
        Except.error (HTError.notInitialized "question answering" "init_qa(model_name)")) ∧
      (answer_question (init_qa s) runner question context =
        Except.ok (runner question context)) ∧
      (answers_to_question (init_qa s) runnerK question context k =
        Except.ok (runnerK question context k)) ∧
      (train_qa (init_qa s) trainerTrain filepath =
        Except.ok (trainerTrain filepath)) ∧
      (eval_qa (init_qa s) trainerEval filepath =
        Except.ok (trainerEval filepath)) :=
  ⟨rfl, rfl, rfl, rfl, rfl, rfl, rfl, rfl⟩

/-! ## Next-sentence prediction (`happytransformer/happy_bert.py`) -/

/-- The sentence-ending punctuation class of `re.split('[?.!]', text)`. -/
def sentencePunct (c : Char) : Bool :=
  c = '?' || c = '.' || c = '!'

/-- Embeds `re.split('[?.!]', text)` over the text's characters: cut the character
list at every occurrence of the class, keeping empty segments. -/
def splitPunct : List Char → List (List Char)
  | [] => [[]]
  | c :: rest =>
    if sentencePunct c then [] :: splitPunct rest
    else
      match splitPunct rest with
      | [] => [[c]]
      | s :: ss => (c :: s) :: ss

/-- The accumulator loop of `__is_one_sentence` (lines 130-138): walk the
split segments; a segment containing an alphabetic character is a sentence;
finding a second one returns `False`. -/
def sentence_scan : List (List Char) → Bool → Bool
  | [], _ => true
  | s :: rest, sentence_found =>
    if s.any Char.isAlpha then
      if sentence_found then false else sentence_scan rest true
    else sentence_scan rest sentence_found

/-- Embeds `__is_one_sentence` (lines 121-138). -/
def is_one_sentence (text : String) : Bool :=
  sentence_scan (splitPunct text.data) false

/-- The number of alphabetic segments of `text` when split at '.', '?', '!'. -/
def alphaSegments (text : String) : Nat :=
  (splitPunct text.data).countP (fun s => s.any Char.isAlpha)

/-- Outcome of a `predict_next_sentence` call: either the process was
terminated via `exit()` (after logging the given error), or a value was
returned to the caller (a probability or a boolean). -/
inductive NSPOutcome
  | exited (loggedError : String)
  | value (result : Bool ⊕ ℚ)
deriving DecidableEq

/-- The error logged (line 90) before `exit()`. -/
def nspErrorMsg : String :=
  "Each inputted text variable for the \x22predict_next_sentence\x22 method must contain a single sentence"

/-- Embeds `predict_next_sentence` (lines 78-119): when either input holds
more than one sentence, log the error and terminate the process; otherwise
query the wrapped NSP model (opaque `nsp`, the probability that sentence B
follows sentence A) and return the probability or the boolean
`probability >= 0.5`. -/
def predict_next_sentence (nsp : String → ℚ) (sentence_a sentence_b : String)
    (use_probability : Bool) : NSPOutcome :=
  if ¬ is_one_sentence sentence_a ∨ ¬ is_one_sentence sentence_b then
    NSPOutcome.exited nspErrorMsg
  else
    NSPOutcome.value
      (if use_probability then Sum.inr (nsp (sentence_a ++ " " ++ sentence_b))
       else Sum.inl (decide (nsp (sentence_a ++ " " ++ sentence_b) ≥ 1/2)))

lemma sentence_scan_eq (l : List (List Char)) (found : Bool) :
    sentence_scan l found =
      decide (l.countP (fun s => s.any Char.isAlpha) +
        (if found then 1 else 0) ≤ 1) := by
  induction l generalizing found with
  | nil => cases found <;> simp [sentence_scan]
  | cons s rest ih =>
    by_cases ha : s.any Char.isAlpha = true
    · cases found with
      | true =>
        rw [show sentence_scan (s :: rest) true = false from by
          simp [sentence_scan, ha]]
        rw [eq_comm]
        apply decide_eq_false
        simp only [List.countP_cons, ha, if_true, not_le]
        omega
      | false =>
        rw [show sentence_scan (s :: rest) false = sentence_scan rest true from by
          simp [sentence_scan, ha]]
        rw [ih true, decide_eq_decide]
        simp only [List.countP_cons, ha, if_true, Bool.false_eq_true, if_false]
    · have ha2 : s.any Char.isAlpha = false := by simpa using ha
      rw [show sentence_scan (s :: rest) found = sentence_scan rest found from by
        simp [sentence_scan, ha2]]
      rw [ih found, decide_eq_decide]
      simp only [List.countP_cons, ha2, Bool.false_eq_true, if_false]
      omega

/-- The method `__is_one_sentence` accepts exactly the texts with at most one
alphabetic segment. -/
lemma is_one_sentence_iff (text : String) :
    is_one_sentence text = decide (alphaSegments text ≤ 1) := by
  rw [is_one_sentence, alphaSegments, sentence_scan_eq]
  simp

/-- C10: whenever either input text contains more than one sentence (more
than one alphabetic segment when split at '.', '?' or '!'),
`predict_next_sentence` logs the error and terminates the process via
`exit()` — it neither raises a catchable value nor returns one. -/
theorem predict_next_sentence_exits (nsp : String → ℚ)
    (sentence_a sentence_b : String) (use_probability : Bool)
    (h : 1 < alphaSegments sentence_a ∨ 1 < alphaSegments sentence_b) :
    predict_next_sentence nsp sentence_a sentence_b use_probability =
      NSPOutcome.exited nspErrorMsg := by
  rw [predict_next_sentence]
  have hcond : ¬ is_one_sentence sentence_a ∨ ¬ is_one_sentence sentence_b := by
    rcases h with h | h
    · left
      rw [is_one_sentence_iff]
      simp only [decide_eq_true_eq, Bool.not_eq_true, decide_eq_false_iff_not, not_le]
      exact h
    · right
      rw [is_one_sentence_iff]
      simp only [decide_eq_true_eq, Bool.not_eq_true, decide_eq_false_iff_not, not_le]
      exact h
  rw [if_pos hcond]

/-- A constant stand-in for the wrapped NSP model in the concrete run. -/
def nspConstW : String → ℚ := fun _ => 1

/-- Witness for C10: the first input "Hi there. How are you?" has two
alphabetic segments, so the call exits. -/
theorem predict_next_sentence_exits_witness :
    predict_next_sentence nspConstW "Hi there. How are you?" "Fine." false =
      NSPOutcome.exited nspErrorMsg :=
  predict_next_sentence_exits nspConstW "Hi there. How are you?" "Fine." false
    (by decide)

end HappyTF
